import Mathlib

/-!
Verification of the RTCP compound-packet framing core (`rtcp/src/packet.rs`):
the compound unmarshaler loop, the type-and-subtype dispatch, and the compound
marshaler.  The per-kind decoders (sender report, goodbye, ...) are external
collaborators: the core is embedded generically over a decoder environment.
Bytes are modelled as `Nat`, buffers as `List Nat`, fallible operations return
`Except Error`.  The loop is embedded with an explicit fuel argument equal to
the buffer length; one byte of fuel per iteration is always enough because the
loop consumes at least four bytes per iteration, so the zero-fuel branch is
unreachable (proved below via the length bounds).
-/

/-- Error kinds of the core (`rtcp/src/errors.rs` collaborator): the two core
conditions plus opaque collaborator errors. -/
inductive Error where
  | packetTooShort
  | invalidHeader
  | other (msg : String)
  deriving DecidableEq

/-- Packet type codes: the closed set of known kinds plus the open
unrecognized case. -/
inductive PacketType where
  | typeSenderReport
  | typeReceiverReport
  | typeSourceDescription
  | typeGoodbye
  | typeTransportSpecificFeedback
  | typePayloadSpecificFeedback
  | typeUnrecognized (code : Nat)
  deriving DecidableEq

/-- Modelled from the spec: the packet-type byte mapping of the Header Codec
(§3, §4.1; `header.rs` is not under src/).  The standard RFC 3550/4585 codes
for the six known kinds; every other byte is the open unrecognized case. -/
def PacketType.fromByte (b : Nat) : PacketType :=
  if b = 200 then .typeSenderReport
  else if b = 201 then .typeReceiverReport
  else if b = 202 then .typeSourceDescription
  else if b = 203 then .typeGoodbye
  else if b = 205 then .typeTransportSpecificFeedback
  else if b = 206 then .typePayloadSpecificFeedback
  else .typeUnrecognized b

/-- Modelled from the spec: the fixed 4-byte header length (§4.1, `header.rs`). -/
def HEADER_LENGTH : Nat := 4

/-- Modelled from the spec (§4.4 dispatch table): Transport-Layer Nack format. -/
def FORMAT_TLN : Nat := 1

/-- Modelled from the spec (§4.4): Rapid Resynchronization Request format. -/
def FORMAT_RRR : Nat := 5

/-- Modelled from the spec (§4.4): Picture Loss Indication format. -/
def FORMAT_PLI : Nat := 1

/-- Modelled from the spec (§4.4): Slice Loss Indication format. -/
def FORMAT_SLI : Nat := 2

/-- Modelled from the spec (§4.4): Receiver Estimated Maximum Bitrate format. -/
def FORMAT_REMB : Nat := 15

/-- The fixed RTCP header shared by every sub-packet (§3). -/
structure Header where
  version : Nat
  padding : Bool
  count : Nat
  packetType : PacketType
  length : Nat
  deriving DecidableEq

/-- Modelled from the spec: the Header Codec decode of §4.1 (`header.rs` is not
under src/).  Given at least 4 bytes it decodes version (2 bits), padding flag,
5-bit count/format, the packet-type byte and the 16-bit network-byte-order
length; with fewer than 4 bytes it fails with the too-short condition.  It does
not validate `length` against the available buffer. -/
def Header.unmarshal (data : List Nat) : Except Error Header :=
  match data with
  | b0 :: b1 :: b2 :: b3 :: _ =>
      .ok { version := b0 / 64 % 4
            padding := b0 / 32 % 2 == 1
            count := b0 % 32
            packetType := PacketType.fromByte b1
            length := b2 % 256 * 256 + b3 % 256 }
  | _ => .error .packetTooShort

/-- The environment of concrete decoders (external collaborators, §4.2/§6):
each maps the exactly-sized sub-packet slice (header included) to a packet
value or an error.  `α` is the polymorphic packet value type
(`Box<dyn Packet>` in the source). -/
structure DecodeEnv (α : Type) where
  senderReport : List Nat → Except Error α
  receiverReport : List Nat → Except Error α
  sourceDescription : List Nat → Except Error α
  goodbye : List Nat → Except Error α
  transportLayerNack : List Nat → Except Error α
  rapidResynchronizationRequest : List Nat → Except Error α
  pictureLossIndication : List Nat → Except Error α
  sliceLossIndication : List Nat → Except Error α
  receiverEstimatedMaximumBitrate : List Nat → Except Error α
  rawPacket : List Nat → Except Error α

/-- `unmarshaler` from `packet.rs`: dispatches the slice to the decoder
selected by the header's packet type and count/format. -/
def unmarshaler {α : Type} (env : DecodeEnv α) (reader : List Nat)
    (header : Header) : Except Error α :=
  match header.packetType with
  | .typeSenderReport => env.senderReport reader
  | .typeReceiverReport => env.receiverReport reader
  | .typeSourceDescription => env.sourceDescription reader
  | .typeGoodbye => env.goodbye reader
  | .typeTransportSpecificFeedback =>
      if header.count = FORMAT_TLN then env.transportLayerNack reader
      else if header.count = FORMAT_RRR then env.rapidResynchronizationRequest reader
      else env.rawPacket reader
  | .typePayloadSpecificFeedback =>
      if header.count = FORMAT_PLI then env.pictureLossIndication reader
      else if header.count = FORMAT_SLI then env.sliceLossIndication reader
      else if header.count = FORMAT_REMB then env.receiverEstimatedMaximumBitrate reader
      else env.rawPacket reader
  | .typeUnrecognized _ => env.rawPacket reader

/-- The `while raw_data.len() != 0` loop of `unmarshal` in `packet.rs`,
embedded with a fuel argument (one unit per iteration; `unmarshal` supplies
`data.length`, which always suffices since each iteration consumes at least
4 bytes, so the zero-fuel branch is unreachable from `unmarshal`). -/
def unmarshalLoop {α : Type} (env : DecodeEnv α) (fuel : Nat)
    (data : List Nat) : Except Error (List α) :=
  if data.length = 0 then .ok []
  else if data.length < HEADER_LENGTH then .error .packetTooShort
  else
    match Header.unmarshal (data.take HEADER_LENGTH) with
    | .error e => .error e
    | .ok header =>
      let bytesProcessed := (header.length + 1) * 4
      if bytesProcessed > data.length then .error .packetTooShort
      else
        match unmarshaler env (data.take bytesProcessed) header with
        | .error e => .error e
        | .ok packet =>
          match fuel with
          | 0 => .error .packetTooShort
          | fuel' + 1 =>
            match unmarshalLoop env fuel' (data.drop bytesProcessed) with
            | .error e => .error e
            | .ok packets => .ok (packet :: packets)

/-- `unmarshal` from `packet.rs`: runs the splitting loop over the whole
datagram, then rejects an empty result with the invalid-header error. -/
def unmarshal {α : Type} (env : DecodeEnv α) (raw_data : List Nat) :
    Except Error (List α) :=
  match unmarshalLoop env raw_data.length raw_data with
  | .error e => .error e
  | .ok packets =>
    match packets.length with
    | 0 => .error .invalidHeader
    | _ + 1 => .ok packets

/-- `marshal` from `packet.rs`: writes each packet's own serialization to the
writer in sequence order, stopping at the first failure.  A packet's marshal
method is modelled in state-passing style, `pm p w` returning the mutated
writer together with an optional error. -/
def marshal {α W : Type} (pm : α → W → W × Option Error) (packets : List α)
    (writer : W) : W × Option Error :=
  match packets with
  | [] => (writer, none)
  | p :: rest =>
    match pm p writer with
    | (w, some e) => (w, some e)
    | (w, none) => marshal pm rest w

deriving instance DecidableEq for Except

/-- A concrete packet-value type used to instantiate the generic core in
witnesses: each variant records which decoder produced it and the exact slice
it was handed. -/
inductive Tagged where
  | senderReport (raw : List Nat)
  | receiverReport (raw : List Nat)
  | sourceDescription (raw : List Nat)
  | goodbye (raw : List Nat)
  | transportLayerNack (raw : List Nat)
  | rapidResynchronizationRequest (raw : List Nat)
  | pictureLossIndication (raw : List Nat)
  | sliceLossIndication (raw : List Nat)
  | receiverEstimatedMaximumBitrate (raw : List Nat)
  | rawPacket (raw : List Nat)
  deriving DecidableEq

/-- A concrete decoder environment in which every collaborator succeeds,
tagging the slice it received. -/
def tagEnv : DecodeEnv Tagged where
  senderReport := fun s => .ok (.senderReport s)
  receiverReport := fun s => .ok (.receiverReport s)
  sourceDescription := fun s => .ok (.sourceDescription s)
  goodbye := fun s => .ok (.goodbye s)
  transportLayerNack := fun s => .ok (.transportLayerNack s)
  rapidResynchronizationRequest := fun s => .ok (.rapidResynchronizationRequest s)
  pictureLossIndication := fun s => .ok (.pictureLossIndication s)
  sliceLossIndication := fun s => .ok (.sliceLossIndication s)
  receiverEstimatedMaximumBitrate := fun s => .ok (.receiverEstimatedMaximumBitrate s)
  rawPacket := fun s => .ok (.rawPacket s)

/-- The bytes a `Tagged` packet was constructed from. -/
def Tagged.raw : Tagged → List Nat
  | .senderReport s => s
  | .receiverReport s => s
  | .sourceDescription s => s
  | .goodbye s => s
  | .transportLayerNack s => s
  | .rapidResynchronizationRequest s => s
  | .pictureLossIndication s => s
  | .sliceLossIndication s => s
  | .receiverEstimatedMaximumBitrate s => s
  | .rawPacket s => s

/-- Modelled from the spec: the collaborator serialize method of §4.2 for the
concrete `Tagged` values, and in particular the Raw Fallback of §3 (`raw_packet.rs`
is not under src/): re-serializing reproduces exactly the bytes the packet was
constructed from, appended to the writer, never failing. -/
def Tagged.marshalTo (p : Tagged) (w : List Nat) : List Nat × Option Error :=
  (w ++ p.raw, none)

example : unmarshal tagEnv [128, 200, 0, 0, 128, 203, 0, 0] =
    .ok [Tagged.senderReport [128, 200, 0, 0], Tagged.goodbye [128, 203, 0, 0]] := by
  decide

example : unmarshal tagEnv [128, 200, 0, 0, 128] = .error .packetTooShort := by decide

example : unmarshal tagEnv ([] : List Nat) = .error .invalidHeader := by decide

/-- A decoder environment whose sender-report collaborator fails with an
opaque error, used to witness error propagation. -/
def failEnv : DecodeEnv Tagged :=
  { tagEnv with senderReport := fun _ => .error (.other "bad sender report") }

/-! ### Step lemmas for the splitting loop -/

theorem Header.unmarshal_take (data : List Nat) (h4 : ¬ data.length < HEADER_LENGTH) :
    ∃ header, Header.unmarshal (data.take HEADER_LENGTH) = .ok header := by
  rcases data with _ | ⟨a, _ | ⟨b, _ | ⟨c, _ | ⟨d, t⟩⟩⟩⟩
  · exact absurd (by simp [HEADER_LENGTH]) h4
  · exact absurd (by simp [HEADER_LENGTH]) h4
  · exact absurd (by simp [HEADER_LENGTH]) h4
  · exact absurd (by simp [HEADER_LENGTH]) h4
  · exact ⟨_, rfl⟩

theorem Header.unmarshal_error (data : List Nat) (e : Error)
    (h : Header.unmarshal data = .error e) : e = .packetTooShort := by
  rcases data with _ | ⟨a, _ | ⟨b, _ | ⟨c, _ | ⟨d, t⟩⟩⟩⟩ <;>
    simp only [Header.unmarshal] at h <;>
    first
      | exact (Except.error.inj h).symm
      | exact absurd h (by simp)

theorem unmarshalLoop_nil {α : Type} (env : DecodeEnv α) (fuel : Nat)
    (data : List Nat) (h0 : data.length = 0) :
    unmarshalLoop env fuel data = .ok [] := by
  rw [unmarshalLoop]
  simp [h0]

theorem unmarshalLoop_short {α : Type} (env : DecodeEnv α) (fuel : Nat)
    (data : List Nat) (h0 : data.length ≠ 0) (h4 : data.length < HEADER_LENGTH) :
    unmarshalLoop env fuel data = .error .packetTooShort := by
  rw [unmarshalLoop]
  simp [h0, h4]

theorem unmarshalLoop_truncated {α : Type} (env : DecodeEnv α) (fuel : Nat)
    (data : List Nat) (header : Header)
    (h0 : data.length ≠ 0) (h4 : ¬ data.length < HEADER_LENGTH)
    (hH : Header.unmarshal (data.take HEADER_LENGTH) = .ok header)
    (hbp : (header.length + 1) * 4 > data.length) :
    unmarshalLoop env fuel data = .error .packetTooShort := by
  rw [unmarshalLoop]
  simp [h0, h4, hH, hbp]

theorem unmarshalLoop_cons {α : Type} (env : DecodeEnv α) (fuel : Nat)
    (data : List Nat) (header : Header)
    (h0 : data.length ≠ 0) (h4 : ¬ data.length < HEADER_LENGTH)
    (hH : Header.unmarshal (data.take HEADER_LENGTH) = .ok header)
    (hbp : ¬ (header.length + 1) * 4 > data.length) :
    unmarshalLoop env (fuel + 1) data =
      match unmarshaler env (data.take ((header.length + 1) * 4)) header with
      | .error e => .error e
      | .ok packet =>
        match unmarshalLoop env fuel (data.drop ((header.length + 1) * 4)) with
        | .error e => .error e
        | .ok packets => .ok (packet :: packets) := by
  rw [unmarshalLoop]
  simp [h0, h4, hH, hbp]

/-! ### Claim C1: the packet-too-short conditions -/

/-- Mirrors the iterations of `unmarshalLoop`: `true` exactly when some
iteration (reached after the previous sub-packets decoded successfully) finds
fewer than 4 bytes remaining, or a header whose declared `(length + 1) * 4`
bytes exceed what remains. -/
def hitsShort {α : Type} (env : DecodeEnv α) (fuel : Nat) (data : List Nat) : Bool :=
  if data.length = 0 then false
  else if data.length < HEADER_LENGTH then true
  else
    match Header.unmarshal (data.take HEADER_LENGTH) with
    | .error _ => false
    | .ok header =>
      let bytesProcessed := (header.length + 1) * 4
      if bytesProcessed > data.length then true
      else
        match unmarshaler env (data.take bytesProcessed) header with
        | .error _ => false
        | .ok _ =>
          match fuel with
          | 0 => false
          | fuel' + 1 => hitsShort env fuel' (data.drop bytesProcessed)

theorem loop_hitsShort {α : Type} (env : DecodeEnv α) :
    ∀ fuel data, hitsShort env fuel data = true →
      unmarshalLoop env fuel data = .error .packetTooShort := by
  intro fuel
  induction fuel with
  | zero =>
    intro data h
    rw [hitsShort] at h
    by_cases h0 : data.length = 0
    · simp [h0] at h
    · by_cases h4 : data.length < HEADER_LENGTH
      · exact unmarshalLoop_short env 0 data h0 h4
      · obtain ⟨header, hH⟩ := Header.unmarshal_take data h4
        simp only [if_neg h0, if_neg h4, hH] at h
        by_cases hbp : (header.length + 1) * 4 > data.length
        · exact unmarshalLoop_truncated env 0 data header h0 h4 hH hbp
        · simp only [if_neg hbp] at h
          rcases hU : unmarshaler env (data.take ((header.length + 1) * 4)) header with e | p <;>
            simp [hU] at h
  | succ fuel ih =>
    intro data h
    rw [hitsShort] at h
    by_cases h0 : data.length = 0
    · simp [h0] at h
    · by_cases h4 : data.length < HEADER_LENGTH
      · exact unmarshalLoop_short env (fuel + 1) data h0 h4
      · obtain ⟨header, hH⟩ := Header.unmarshal_take data h4
        simp only [if_neg h0, if_neg h4, hH] at h
        by_cases hbp : (header.length + 1) * 4 > data.length
        · exact unmarshalLoop_truncated env (fuel + 1) data header h0 h4 hH hbp
        · simp only [if_neg hbp] at h
          rcases hU : unmarshaler env (data.take ((header.length + 1) * 4)) header with e | p <;>
            simp only [hU] at h
          · exact absurd h (by simp)
          · rw [unmarshalLoop_cons env fuel data header h0 h4 hH hbp]
            simp [hU, ih _ h]

/-- C1: if at any iteration fewer than 4 bytes remain past the cursor (in
particular for any buffer of length 1 to 3), or a decoded header's declared
`(length + 1) * 4` bytes exceed the bytes remaining from the cursor, then
`unmarshal` fails with the packet-too-short error and returns no packets at
all, even when well-formed sub-packets precede the malformed one. -/
theorem unmarshal_packetTooShort {α : Type} (env : DecodeEnv α) (data : List Nat) :
    (1 ≤ data.length → data.length ≤ 3 → unmarshal env data = .error .packetTooShort) ∧
    (hitsShort env data.length data = true → unmarshal env data = .error .packetTooShort) := by
  constructor
  · intro h1 h3
    rw [unmarshal, unmarshalLoop_short env data.length data (by omega)
      (by rw [HEADER_LENGTH]; omega)]
  · intro h
    rw [unmarshal, loop_hitsShort env data.length data h]

/-- Witness for C1: a well-formed sender report followed by a truncated
trailing fragment is rejected whole, and a 1-byte buffer is rejected. -/
theorem unmarshal_packetTooShort_witness :
    unmarshal tagEnv [128, 200, 0, 0, 128] = .error .packetTooShort ∧
    unmarshal tagEnv [128] = .error .packetTooShort :=
  ⟨(unmarshal_packetTooShort tagEnv [128, 200, 0, 0, 128]).2 (by decide),
   (unmarshal_packetTooShort tagEnv [128]).1 (by decide) (by decide)⟩

/-! ### Claim C2: the invalid-header condition -/

theorem loop_ok_nonempty {α : Type} (env : DecodeEnv α) (fuel : Nat) (data : List Nat)
    (ps : List α) (h0 : data.length ≠ 0) (h : unmarshalLoop env fuel data = .ok ps) :
    ps ≠ [] := by
  by_cases h4 : data.length < HEADER_LENGTH
  · rw [unmarshalLoop_short env fuel data h0 h4] at h
    exact absurd h (by simp)
  · obtain ⟨header, hH⟩ := Header.unmarshal_take data h4
    by_cases hbp : (header.length + 1) * 4 > data.length
    · rw [unmarshalLoop_truncated env fuel data header h0 h4 hH hbp] at h
      exact absurd h (by simp)
    · rcases fuel with _ | fuel
      · rw [unmarshalLoop] at h
        simp only [if_neg h0, if_neg h4, hH, if_neg hbp] at h
        rcases hU : unmarshaler env (data.take ((header.length + 1) * 4)) header with e | p <;>
          simp only [hU] at h <;> exact absurd h (by simp)
      · rw [unmarshalLoop_cons env fuel data header h0 h4 hH hbp] at h
        rcases hU : unmarshaler env (data.take ((header.length + 1) * 4)) header with e | p <;>
          simp only [hU] at h
        · exact absurd h (by simp)
        · rcases hrec : unmarshalLoop env fuel (data.drop ((header.length + 1) * 4)) with e | ps2 <;>
            simp only [hrec] at h
          · exact absurd h (by simp)
          · obtain rfl : p :: ps2 = ps := Except.ok.inj h
            simp

theorem loop_no_invalidHeader {α : Type} (env : DecodeEnv α)
    (hdec : ∀ slice header, unmarshaler env slice header ≠ .error .invalidHeader) :
    ∀ fuel data, unmarshalLoop env fuel data ≠ .error .invalidHeader := by
  intro fuel
  induction fuel with
  | zero =>
    intro data h
    by_cases h0 : data.length = 0
    · rw [unmarshalLoop_nil env 0 data h0] at h
      exact absurd h (by simp)
    · by_cases h4 : data.length < HEADER_LENGTH
      · rw [unmarshalLoop_short env 0 data h0 h4] at h
        exact absurd h (by simp)
      · obtain ⟨header, hH⟩ := Header.unmarshal_take data h4
        by_cases hbp : (header.length + 1) * 4 > data.length
        · rw [unmarshalLoop_truncated env 0 data header h0 h4 hH hbp] at h
          exact absurd h (by simp)
        · rw [unmarshalLoop] at h
          simp only [if_neg h0, if_neg h4, hH, if_neg hbp] at h
          rcases hU : unmarshaler env (data.take ((header.length + 1) * 4)) header with e | p <;>
            simp only [hU] at h
          · obtain rfl := Except.error.inj h
            exact hdec _ _ hU
          · exact absurd h (by simp)
  | succ fuel ih =>
    intro data h
    by_cases h0 : data.length = 0
    · rw [unmarshalLoop_nil env (fuel + 1) data h0] at h
      exact absurd h (by simp)
    · by_cases h4 : data.length < HEADER_LENGTH
      · rw [unmarshalLoop_short env (fuel + 1) data h0 h4] at h
        exact absurd h (by simp)
      · obtain ⟨header, hH⟩ := Header.unmarshal_take data h4
        by_cases hbp : (header.length + 1) * 4 > data.length
        · rw [unmarshalLoop_truncated env (fuel + 1) data header h0 h4 hH hbp] at h
          exact absurd h (by simp)
        · rw [unmarshalLoop_cons env fuel data header h0 h4 hH hbp] at h
          rcases hU : unmarshaler env (data.take ((header.length + 1) * 4)) header with e | p <;>
            simp only [hU] at h
          · obtain rfl := Except.error.inj h
            exact hdec _ _ hU
          · rcases hrec : unmarshalLoop env fuel (data.drop ((header.length + 1) * 4)) with e | ps <;>
              simp only [hrec] at h
            · obtain rfl := Except.error.inj h
              exact ih _ hrec
            · exact absurd h (by simp)

/-- C2: `unmarshal` on the empty buffer fails with the invalid-header error,
and — given that the collaborating decoders never themselves return that error
(they must fail distinctly, §6) — the invalid-header error arises only on the
empty buffer: any non-empty input either parses into at least one packet or
fails with some other error before the empty-result check. -/
theorem unmarshal_invalidHeader {α : Type} (env : DecodeEnv α) :
    unmarshal env ([] : List Nat) = .error .invalidHeader ∧
    ∀ data : List Nat, data ≠ [] →
      (∀ slice header, unmarshaler env slice header ≠ .error .invalidHeader) →
      unmarshal env data ≠ .error .invalidHeader := by
  constructor
  · rfl
  · intro data hne hdec h
    rw [unmarshal] at h
    rcases hl : unmarshalLoop env data.length data with e | ps
    · rw [hl] at h
      obtain rfl := Except.error.inj h
      exact loop_no_invalidHeader env hdec _ _ hl
    · rw [hl] at h
      have hps : ps ≠ [] :=
        loop_ok_nonempty env data.length data ps (by simpa using hne) hl
      rcases ps with _ | ⟨p, rest⟩
      · exact hps rfl
      · exact absurd h (by simp)

theorem tagEnv_ok (slice : List Nat) (header : Header) :
    ∃ p, unmarshaler tagEnv slice header = .ok p := by
  rcases header with ⟨v, pad, cnt, pt, len⟩
  rcases pt <;> simp only [unmarshaler, tagEnv] <;>
    first
      | exact ⟨_, rfl⟩
      | (split_ifs <;> exact ⟨_, rfl⟩)

theorem tagEnv_no_invalidHeader (slice : List Nat) (header : Header) :
    unmarshaler tagEnv slice header ≠ .error .invalidHeader := by
  obtain ⟨p, hp⟩ := tagEnv_ok slice header
  rw [hp]
  simp

/-- Witness for C2 at a concrete non-empty buffer and an environment whose
decoders never fail. -/
theorem unmarshal_invalidHeader_witness :
    unmarshal tagEnv ([] : List Nat) = .error .invalidHeader ∧
    unmarshal tagEnv [128, 200, 0, 0] ≠ .error .invalidHeader :=
  ⟨(unmarshal_invalidHeader tagEnv).1,
   (unmarshal_invalidHeader tagEnv).2 [128, 200, 0, 0] (by decide) tagEnv_no_invalidHeader⟩

/-! ### Claim C3: collaborator errors propagate unchanged -/

/-- Mirrors the iterations of `unmarshalLoop`: returns the error of the first
concrete-decoder invocation that fails, reached after the preceding
sub-packets decoded successfully, or `none` when no decoder fails before the
loop stops. -/
def firstDecodeError {α : Type} (env : DecodeEnv α) (fuel : Nat)
    (data : List Nat) : Option Error :=
  if data.length = 0 then none
  else if data.length < HEADER_LENGTH then none
  else
    match Header.unmarshal (data.take HEADER_LENGTH) with
    | .error _ => none
    | .ok header =>
      let bytesProcessed := (header.length + 1) * 4
      if bytesProcessed > data.length then none
      else
        match unmarshaler env (data.take bytesProcessed) header with
        | .error e => some e
        | .ok _ =>
          match fuel with
          | 0 => none
          | fuel' + 1 => firstDecodeError env fuel' (data.drop bytesProcessed)

theorem loop_firstDecodeError {α : Type} (env : DecodeEnv α) :
    ∀ fuel data e, firstDecodeError env fuel data = some e →
      unmarshalLoop env fuel data = .error e := by
  intro fuel
  induction fuel with
  | zero =>
    intro data e h
    rw [firstDecodeError] at h
    by_cases h0 : data.length = 0
    · simp [h0] at h
    · by_cases h4 : data.length < HEADER_LENGTH
      · simp [h0, h4] at h
      · obtain ⟨header, hH⟩ := Header.unmarshal_take data h4
        simp only [if_neg h0, if_neg h4, hH] at h
        by_cases hbp : (header.length + 1) * 4 > data.length
        · simp [hbp] at h
        · simp only [if_neg hbp] at h
          rcases hU : unmarshaler env (data.take ((header.length + 1) * 4)) header with e2 | p <;>
            simp only [hU] at h
          · obtain rfl := Option.some.inj h
            rw [unmarshalLoop]
            simp [h0, h4, hH, hbp, hU]
          · simp at h
  | succ fuel ih =>
    intro data e h
    rw [firstDecodeError] at h
    by_cases h0 : data.length = 0
    · simp [h0] at h
    · by_cases h4 : data.length < HEADER_LENGTH
      · simp [h0, h4] at h
      · obtain ⟨header, hH⟩ := Header.unmarshal_take data h4
        simp only [if_neg h0, if_neg h4, hH] at h
        by_cases hbp : (header.length + 1) * 4 > data.length
        · simp [hbp] at h
        · simp only [if_neg hbp] at h
          rcases hU : unmarshaler env (data.take ((header.length + 1) * 4)) header with e2 | p <;>
            simp only [hU] at h
          · obtain rfl := Option.some.inj h
            rw [unmarshalLoop_cons env fuel data header h0 h4 hH hbp]
            simp [hU]
          · rw [unmarshalLoop_cons env fuel data header h0 h4 hH hbp]
            simp [hU, ih _ _ h]

/-- C3: whenever a concrete sub-packet decoder invoked during `unmarshal`
fails (the first such failure, reached after the preceding sub-packets decoded
successfully), that decoder's error is propagated unchanged and the whole call
fails, returning no partial sequence. -/
theorem unmarshal_decode_error {α : Type} (env : DecodeEnv α) (data : List Nat)
    (e : Error) (h : firstDecodeError env data.length data = some e) :
    unmarshal env data = .error e := by
  rw [unmarshal, loop_firstDecodeError env data.length data e h]

/-- Witness for C3: a well-formed goodbye precedes a sender report whose
collaborator decoder fails; the opaque collaborator error aborts the call
unchanged. -/
theorem unmarshal_decode_error_witness :
    unmarshal failEnv [128, 203, 0, 0, 128, 200, 0, 0] =
      .error (.other "bad sender report") :=
  unmarshal_decode_error failEnv [128, 203, 0, 0, 128, 200, 0, 0]
    (.other "bad sender report") (by decide)

/-! ### Claim C4: dispatch is a total function of (packet type, count/format) -/

/-- The dispatch table written directly from the spec (§4.4): a total mapping
from `(packet_type, count_or_format)` to the decoder to invoke, with the Raw
fallback for every unknown combination. -/
def dispatchTable {α : Type} (env : DecodeEnv α) :
    PacketType → Nat → (List Nat → Except Error α)
  | .typeSenderReport, _ => env.senderReport
  | .typeReceiverReport, _ => env.receiverReport
  | .typeSourceDescription, _ => env.sourceDescription
  | .typeGoodbye, _ => env.goodbye
  | .typeTransportSpecificFeedback, 1 => env.transportLayerNack
  | .typeTransportSpecificFeedback, 5 => env.rapidResynchronizationRequest
  | .typeTransportSpecificFeedback, _ => env.rawPacket
  | .typePayloadSpecificFeedback, 1 => env.pictureLossIndication
  | .typePayloadSpecificFeedback, 2 => env.sliceLossIndication
  | .typePayloadSpecificFeedback, 15 => env.receiverEstimatedMaximumBitrate
  | .typePayloadSpecificFeedback, _ => env.rawPacket
  | .typeUnrecognized _, _ => env.rawPacket

/-- C4: the dispatch performed by `unmarshaler` is exactly the total table of
§4.4 applied to the header's packet type and count/format — sender report,
receiver report, source description and goodbye to their decoders; transport
feedback format 1 to Nack, 5 to Rapid Resynchronization Request, otherwise
Raw; payload feedback format 1 to Picture Loss Indication, 2 to Slice Loss
Indication, 15 to Receiver Estimated Maximum Bitrate, otherwise Raw; every
other type to Raw.  Dispatch itself never rejects a combination. -/
theorem unmarshaler_is_dispatchTable {α : Type} (env : DecodeEnv α)
    (reader : List Nat) (header : Header) :
    unmarshaler env reader header =
      dispatchTable env header.packetType header.count reader := by
  rcases header with ⟨v, pad, cnt, pt, len⟩
  rcases pt <;> simp only [unmarshaler, dispatchTable]
  · by_cases h1 : cnt = FORMAT_TLN
    · subst h1
      simp [FORMAT_TLN, dispatchTable]
    · by_cases h5 : cnt = FORMAT_RRR
      · subst h5
        simp [FORMAT_TLN, FORMAT_RRR, dispatchTable]
      · rw [if_neg h1, if_neg h5]
        rcases cnt with _ | _ | _ | _ | _ | _ | cnt <;>
          first
            | rfl
            | (exact absurd rfl h1)
            | (exact absurd rfl h5)
  · by_cases h1 : cnt = FORMAT_PLI
    · subst h1
      simp [FORMAT_PLI, dispatchTable]
    · by_cases h2 : cnt = FORMAT_SLI
      · subst h2
        simp [FORMAT_PLI, FORMAT_SLI, dispatchTable]
      · by_cases h15 : cnt = FORMAT_REMB
        · subst h15
          simp [FORMAT_PLI, FORMAT_SLI, FORMAT_REMB, dispatchTable]
        · rw [if_neg h1, if_neg h2, if_neg h15]
          rcases cnt with _ | _ | _ | _ | _ | _ | _ | _ | _ | _ | _ | _ | _ | _ | _ | _ | cnt <;>
            first
              | rfl
              | (exact absurd rfl h1)
              | (exact absurd rfl h2)
              | (exact absurd rfl h15)

/-! ### Claims C5, C8, C9: slicing, ordering, and consumption invariants -/

theorem unmarshal_ok_loop {α : Type} (env : DecodeEnv α) (data : List Nat)
    (ps : List α) (h : unmarshal env data = .ok ps) :
    unmarshalLoop env data.length data = .ok ps := by
  rw [unmarshal] at h
  rcases hl : unmarshalLoop env data.length data with e | ps2 <;> rw [hl] at h
  · exact absurd h (by simp)
  · rcases ps2 with _ | ⟨p, rest⟩
    · simp at h
    · simp only [List.length_cons] at h
      exact h

theorem loop_splits {α : Type} (env : DecodeEnv α) :
    ∀ fuel data ps, unmarshalLoop env fuel data = .ok ps →
      ∃ slices : List (List Nat), data = slices.flatten ∧
        List.Forall₂ (fun s p => ∃ header,
          Header.unmarshal (s.take HEADER_LENGTH) = .ok header ∧
          s.length = (header.length + 1) * 4 ∧
          unmarshaler env s header = .ok p) slices ps := by
  intro fuel
  induction fuel with
  | zero =>
    intro data ps h
    by_cases h0 : data.length = 0
    · rw [unmarshalLoop_nil env 0 data h0] at h
      obtain rfl := Except.ok.inj h
      exact ⟨[], by simpa using List.eq_nil_of_length_eq_zero h0, List.Forall₂.nil⟩
    · by_cases h4 : data.length < HEADER_LENGTH
      · rw [unmarshalLoop_short env 0 data h0 h4] at h
        exact absurd h (by simp)
      · obtain ⟨header, hH⟩ := Header.unmarshal_take data h4
        by_cases hbp : (header.length + 1) * 4 > data.length
        · rw [unmarshalLoop_truncated env 0 data header h0 h4 hH hbp] at h
          exact absurd h (by simp)
        · rw [unmarshalLoop] at h
          simp only [if_neg h0, if_neg h4, hH, if_neg hbp] at h
          rcases hU : unmarshaler env (data.take ((header.length + 1) * 4)) header with e | p <;>
            simp only [hU] at h <;> exact absurd h (by simp)
  | succ fuel ih =>
    intro data ps h
    by_cases h0 : data.length = 0
    · rw [unmarshalLoop_nil env (fuel + 1) data h0] at h
      obtain rfl := Except.ok.inj h
      exact ⟨[], by simpa using List.eq_nil_of_length_eq_zero h0, List.Forall₂.nil⟩
    · by_cases h4 : data.length < HEADER_LENGTH
      · rw [unmarshalLoop_short env (fuel + 1) data h0 h4] at h
        exact absurd h (by simp)
      · obtain ⟨header, hH⟩ := Header.unmarshal_take data h4
        by_cases hbp : (header.length + 1) * 4 > data.length
        · rw [unmarshalLoop_truncated env (fuel + 1) data header h0 h4 hH hbp] at h
          exact absurd h (by simp)
        · rw [unmarshalLoop_cons env fuel data header h0 h4 hH hbp] at h
          rcases hU : unmarshaler env (data.take ((header.length + 1) * 4)) header with e | p <;>
            simp only [hU] at h
          · exact absurd h (by simp)
          · rcases hrec : unmarshalLoop env fuel (data.drop ((header.length + 1) * 4)) with e | rest <;>
              simp only [hrec] at h
            · exact absurd h (by simp)
            · obtain rfl := Except.ok.inj h
              obtain ⟨slices, hjoin, hforall⟩ := ih _ _ hrec
              refine ⟨data.take ((header.length + 1) * 4) :: slices, ?_, ?_⟩
              · rw [List.flatten_cons, ← hjoin]
                exact (List.take_append_drop _ _).symm
              · refine List.Forall₂.cons ⟨header, ?_, ?_, hU⟩ hforall
                · rw [List.take_take, Nat.min_eq_left (by rw [HEADER_LENGTH]; omega)]
                  exact hH
                · rw [List.length_take]
                  exact Nat.min_eq_left (by omega)

/-- C5: whenever `unmarshal` succeeds, the input splits into consecutive
slices of exactly `(header.length + 1) * 4` bytes each (header included), the
output packets are exactly the dispatch results of those self-contained slices
in wire order — none dropped, duplicated or reordered — and in particular a
sender report immediately followed by a goodbye decodes to the two-element
sequence in exactly that order. -/
theorem unmarshal_slices_in_order {α : Type} (env : DecodeEnv α) (data : List Nat)
    (ps : List α) :
    (unmarshal env data = .ok ps →
      ∃ slices : List (List Nat), data = slices.flatten ∧
        List.Forall₂ (fun s p => ∃ header,
          Header.unmarshal (s.take HEADER_LENGTH) = .ok header ∧
          s.length = (header.length + 1) * 4 ∧
          unmarshaler env s header = .ok p) slices ps) ∧
    unmarshal tagEnv [128, 200, 0, 0, 128, 203, 0, 0] =
      .ok [Tagged.senderReport [128, 200, 0, 0], Tagged.goodbye [128, 203, 0, 0]] := by
  constructor
  · intro h
    exact loop_splits env data.length data ps (unmarshal_ok_loop env data ps h)
  · decide

/-- Witness for C5: the decomposition at a concrete sender-report-then-goodbye
buffer. -/
theorem unmarshal_slices_in_order_witness :
    ∃ slices : List (List Nat),
      ([128, 200, 0, 0, 128, 203, 0, 0] : List Nat) = slices.flatten ∧
      List.Forall₂ (fun s p => ∃ header,
        Header.unmarshal (s.take HEADER_LENGTH) = .ok header ∧
        s.length = (header.length + 1) * 4 ∧
        unmarshaler tagEnv s header = .ok p) slices
        [Tagged.senderReport [128, 200, 0, 0], Tagged.goodbye [128, 203, 0, 0]] :=
  (unmarshal_slices_in_order tagEnv [128, 200, 0, 0, 128, 203, 0, 0]
    [Tagged.senderReport [128, 200, 0, 0], Tagged.goodbye [128, 203, 0, 0]]).1
    (by decide)

theorem loop_length_bound {α : Type} (env : DecodeEnv α) :
    ∀ fuel data ps, unmarshalLoop env fuel data = .ok ps →
      4 * ps.length ≤ data.length := by
  intro fuel
  induction fuel with
  | zero =>
    intro data ps h
    by_cases h0 : data.length = 0
    · rw [unmarshalLoop_nil env 0 data h0] at h
      obtain rfl := Except.ok.inj h
      simp
    · by_cases h4 : data.length < HEADER_LENGTH
      · rw [unmarshalLoop_short env 0 data h0 h4] at h
        exact absurd h (by simp)
      · obtain ⟨header, hH⟩ := Header.unmarshal_take data h4
        by_cases hbp : (header.length + 1) * 4 > data.length
        · rw [unmarshalLoop_truncated env 0 data header h0 h4 hH hbp] at h
          exact absurd h (by simp)
        · rw [unmarshalLoop] at h
          simp only [if_neg h0, if_neg h4, hH, if_neg hbp] at h
          rcases hU : unmarshaler env (data.take ((header.length + 1) * 4)) header with e | p <;>
            simp only [hU] at h <;> exact absurd h (by simp)
  | succ fuel ih =>
    intro data ps h
    by_cases h0 : data.length = 0
    · rw [unmarshalLoop_nil env (fuel + 1) data h0] at h
      obtain rfl := Except.ok.inj h
      simp
    · by_cases h4 : data.length < HEADER_LENGTH
      · rw [unmarshalLoop_short env (fuel + 1) data h0 h4] at h
        exact absurd h (by simp)
      · obtain ⟨header, hH⟩ := Header.unmarshal_take data h4
        by_cases hbp : (header.length + 1) * 4 > data.length
        · rw [unmarshalLoop_truncated env (fuel + 1) data header h0 h4 hH hbp] at h
          exact absurd h (by simp)
        · rw [unmarshalLoop_cons env fuel data header h0 h4 hH hbp] at h
          rcases hU : unmarshaler env (data.take ((header.length + 1) * 4)) header with e | p <;>
            simp only [hU] at h
          · exact absurd h (by simp)
          · rcases hrec : unmarshalLoop env fuel (data.drop ((header.length + 1) * 4)) with e | rest <;>
              simp only [hrec] at h
            · exact absurd h (by simp)
            · obtain rfl := Except.ok.inj h
              have hrest := ih _ _ hrec
              rw [List.length_drop] at hrest
              simp only [List.length_cons]
              omega

/-- C8: the loop consumes at least 4 bytes per decoded sub-packet, so a
successful `unmarshal` returns at most `length / 4` packets — the single-pass,
no-backtracking loop is linear in the input length (its Lean embedding is a
total function, so it terminates on every buffer). -/
theorem unmarshal_linear {α : Type} (env : DecodeEnv α) (data : List Nat)
    (ps : List α) (h : unmarshal env data = .ok ps) :
    4 * ps.length ≤ data.length :=
  loop_length_bound env data.length data ps (unmarshal_ok_loop env data ps h)

/-- Witness for C8: two packets decoded from an 8-byte buffer. -/
theorem unmarshal_linear_witness :
    4 * ([Tagged.senderReport [128, 200, 0, 0],
          Tagged.goodbye [128, 203, 0, 0]] : List Tagged).length ≤
      ([128, 200, 0, 0, 128, 203, 0, 0] : List Nat).length :=
  unmarshal_linear tagEnv [128, 200, 0, 0, 128, 203, 0, 0]
    [Tagged.senderReport [128, 200, 0, 0], Tagged.goodbye [128, 203, 0, 0]]
    (by decide)

theorem loop_headers {α : Type} (env : DecodeEnv α) :
    ∀ fuel data ps, unmarshalLoop env fuel data = .ok ps →
      ∃ hs : List Header, hs.length = ps.length ∧
        (hs.map (fun hd => (hd.length + 1) * 4)).sum = data.length := by
  intro fuel
  induction fuel with
  | zero =>
    intro data ps h
    by_cases h0 : data.length = 0
    · rw [unmarshalLoop_nil env 0 data h0] at h
      obtain rfl := Except.ok.inj h
      exact ⟨[], rfl, by simp [h0]⟩
    · by_cases h4 : data.length < HEADER_LENGTH
      · rw [unmarshalLoop_short env 0 data h0 h4] at h
        exact absurd h (by simp)
      · obtain ⟨header, hH⟩ := Header.unmarshal_take data h4
        by_cases hbp : (header.length + 1) * 4 > data.length
        · rw [unmarshalLoop_truncated env 0 data header h0 h4 hH hbp] at h
          exact absurd h (by simp)
        · rw [unmarshalLoop] at h
          simp only [if_neg h0, if_neg h4, hH, if_neg hbp] at h
          rcases hU : unmarshaler env (data.take ((header.length + 1) * 4)) header with e | p <;>
            simp only [hU] at h <;> exact absurd h (by simp)
  | succ fuel ih =>
    intro data ps h
    by_cases h0 : data.length = 0
    · rw [unmarshalLoop_nil env (fuel + 1) data h0] at h
      obtain rfl := Except.ok.inj h
      exact ⟨[], rfl, by simp [h0]⟩
    · by_cases h4 : data.length < HEADER_LENGTH
      · rw [unmarshalLoop_short env (fuel + 1) data h0 h4] at h
        exact absurd h (by simp)
      · obtain ⟨header, hH⟩ := Header.unmarshal_take data h4
        by_cases hbp : (header.length + 1) * 4 > data.length
        · rw [unmarshalLoop_truncated env (fuel + 1) data header h0 h4 hH hbp] at h
          exact absurd h (by simp)
        · rw [unmarshalLoop_cons env fuel data header h0 h4 hH hbp] at h
          rcases hU : unmarshaler env (data.take ((header.length + 1) * 4)) header with e | p <;>
            simp only [hU] at h
          · exact absurd h (by simp)
          · rcases hrec : unmarshalLoop env fuel (data.drop ((header.length + 1) * 4)) with e | rest <;>
              simp only [hrec] at h
            · exact absurd h (by simp)
            · obtain rfl := Except.ok.inj h
              obtain ⟨hs, hlen, hsum⟩ := ih _ _ hrec
              rw [List.length_drop] at hsum
              refine ⟨header :: hs, by simp [hlen], ?_⟩
              simp only [List.map_cons, List.sum_cons]
              omega

/-- C9: bytes consumed per iteration are determined solely by the decoded
header's length field, so a successful `unmarshal` has the sum of
`(length_i + 1) * 4` over the decoded headers equal to the buffer length
exactly: every accepted buffer is a nonzero multiple of 4 bytes, consumed in
full. -/
theorem unmarshal_consumes_exactly {α : Type} (env : DecodeEnv α)
    (data : List Nat) (ps : List α) (h : unmarshal env data = .ok ps) :
    (∃ hs : List Header, hs.length = ps.length ∧
      (hs.map (fun hd => (hd.length + 1) * 4)).sum = data.length) ∧
    data.length % 4 = 0 ∧ data.length ≠ 0 := by
  obtain ⟨hs, hlen, hsum⟩ :=
    loop_headers env data.length data ps (unmarshal_ok_loop env data ps h)
  refine ⟨⟨hs, hlen, hsum⟩, ?_, ?_⟩
  · have hdvd : (4 : Nat) ∣ (hs.map (fun hd => (hd.length + 1) * 4)).sum := by
      apply List.dvd_sum
      intro x hx
      simp only [List.mem_map] at hx
      obtain ⟨hd, _, rfl⟩ := hx
      exact ⟨hd.length + 1, by ring⟩
    obtain ⟨c, hc⟩ := hdvd
    rw [← hsum, hc]
    simp [Nat.mul_mod_right]
  · intro h0
    rw [unmarshal, unmarshalLoop_nil env data.length data h0] at h
    simp at h

/-- Witness for C9 at a concrete two-packet buffer. -/
theorem unmarshal_consumes_exactly_witness :
    (∃ hs : List Header,
      hs.length = ([Tagged.senderReport [128, 200, 0, 0],
        Tagged.goodbye [128, 203, 0, 0]] : List Tagged).length ∧
      (hs.map (fun hd => (hd.length + 1) * 4)).sum =
        ([128, 200, 0, 0, 128, 203, 0, 0] : List Nat).length) ∧
    ([128, 200, 0, 0, 128, 203, 0, 0] : List Nat).length % 4 = 0 ∧
    ([128, 200, 0, 0, 128, 203, 0, 0] : List Nat).length ≠ 0 :=
  unmarshal_consumes_exactly tagEnv [128, 200, 0, 0, 128, 203, 0, 0]
    [Tagged.senderReport [128, 200, 0, 0], Tagged.goodbye [128, 203, 0, 0]]
    (by decide)

/-! ### Claim C6: the compound marshaler -/

theorem marshal_append {α : Type} (pm : α → List Nat → List Nat × Option Error)
    (out : α → List Nat) (err : α → Option Error)
    (hpm : ∀ p w, pm p w = (w ++ out p, err p)) :
    ∀ (ps : List α) (w : List Nat), (∀ p ∈ ps, err p = none) →
      marshal pm ps w = (w ++ (ps.map out).flatten, none) := by
  intro ps
  induction ps with
  | nil =>
    intro w h
    rw [marshal]
    simp
  | cons p rest ih =>
    intro w h
    rw [marshal, hpm, h p (by simp)]
    show marshal pm rest (w ++ out p) = _
    rw [ih (w ++ out p) (fun q hq => h q (by simp [hq]))]
    simp

/-- C6: for every sequence of packets and sink, `marshal` writes each packet's
own serialization in sequence order with nothing added between them; on the
first failing packet it stops, propagates that error unchanged, and the bytes
already written (those of the preceding packets, plus whatever the failing
write produced) are not undone. -/
theorem marshal_in_order_fail_fast {α : Type}
    (pm : α → List Nat → List Nat × Option Error)
    (out : α → List Nat) (err : α → Option Error)
    (hpm : ∀ p w, pm p w = (w ++ out p, err p)) :
    (∀ (ps : List α) (w : List Nat), (∀ p ∈ ps, err p = none) →
      marshal pm ps w = (w ++ (ps.map out).flatten, none)) ∧
    (∀ (ps₁ : List α) (p : α) (ps₂ : List α),
      ∀ (w : List Nat) (e : Error), (∀ q ∈ ps₁, err q = none) → err p = some e →
        marshal pm (ps₁ ++ p :: ps₂) w =
          (w ++ (ps₁.map out).flatten ++ out p, some e)) := by
  constructor
  · exact marshal_append pm out err hpm
  · intro ps₁ p ps₂
    induction ps₁ with
    | nil =>
      intro w e h1 hp
      simp only [List.nil_append]
      rw [marshal, hpm, hp]
      simp
    | cons q rest ih =>
      intro w e h1 hp
      rw [List.cons_append, marshal, hpm, h1 q (by simp)]
      show marshal pm (rest ++ p :: ps₂) (w ++ out q) = _
      rw [ih (w ++ out q) e (fun r hr => h1 r (by simp [hr])) hp]
      simp

/-- Witness for C6: two packets serialize back to back, and a failing third
packet aborts with its own error while keeping the bytes already written. -/
theorem marshal_in_order_fail_fast_witness :
    marshal Tagged.marshalTo
      [Tagged.goodbye [128, 203, 0, 0], Tagged.rawPacket [1, 2, 3]]
      ([] : List Nat) =
      ([] ++ ([Tagged.goodbye [128, 203, 0, 0],
               Tagged.rawPacket [1, 2, 3]].map Tagged.raw).flatten, none) ∧
    marshal (fun (p : Tagged) (w : List Nat) =>
        (w ++ p.raw, if p.raw = [9] then some (.other "sink refused") else none))
      [Tagged.goodbye [128, 203, 0, 0], Tagged.rawPacket [9], Tagged.rawPacket [7]]
      ([] : List Nat) =
      ([] ++ ([Tagged.goodbye [128, 203, 0, 0]].map Tagged.raw).flatten ++ [9],
       some (.other "sink refused")) :=
  ⟨(marshal_in_order_fail_fast Tagged.marshalTo Tagged.raw (fun _ => none)
      (fun p w => rfl)).1
      [Tagged.goodbye [128, 203, 0, 0], Tagged.rawPacket [1, 2, 3]] []
      (fun p _ => rfl),
   (marshal_in_order_fail_fast
      (fun (p : Tagged) (w : List Nat) =>
        (w ++ p.raw, if p.raw = [9] then some (.other "sink refused") else none))
      Tagged.raw
      (fun p => if p.raw = [9] then some (.other "sink refused") else none)
      (fun p w => rfl)).2
      [Tagged.goodbye [128, 203, 0, 0]] (Tagged.rawPacket [9]) [Tagged.rawPacket [7]]
      [] (.other "sink refused") (by decide) (by decide)⟩

/-! ### Claim C7: the round trip -/

theorem take_append_left (n : Nat) (l₁ l₂ : List Nat) (h : n ≤ l₁.length) :
    (l₁ ++ l₂).take n = l₁.take n := by
  rw [List.take_append_eq_append_take, Nat.sub_eq_zero_of_le h]
  simp

/-- Counterexample to C7 as stated: for the empty sequence of packets the
round trip fails — `marshal` writes zero bytes, and `unmarshal` rejects the
resulting empty buffer instead of returning the empty sequence. -/
theorem roundtrip_fails_on_nil :
    (marshal Tagged.marshalTo ([] : List Tagged) ([] : List Nat)).1 = [] ∧
    unmarshal tagEnv (marshal Tagged.marshalTo ([] : List Tagged)
        ([] : List Nat)).1 ≠ .ok ([] : List Tagged) := by
  constructor
  · rfl
  · decide

theorem loop_of_serial {α : Type} (env : DecodeEnv α) (serial : α → List Nat) :
    ∀ (P : List α) (fuel : Nat),
      ((P.map serial).flatten).length ≤ fuel →
      (∀ p ∈ P, ∃ header,
        Header.unmarshal ((serial p).take HEADER_LENGTH) = .ok header ∧
        (serial p).length = (header.length + 1) * 4 ∧
        unmarshaler env (serial p) header = .ok p) →
      unmarshalLoop env fuel ((P.map serial).flatten) = .ok P := by
  intro P
  induction P with
  | nil =>
    intro fuel hf hinv
    exact unmarshalLoop_nil env fuel _ (by simp)
  | cons p rest ih =>
    intro fuel hf hinv
    obtain ⟨header, hH, hlen, hU⟩ := hinv p (by simp)
    have hdataeq : ((p :: rest).map serial).flatten =
        serial p ++ (rest.map serial).flatten := by simp
    rw [hdataeq] at hf ⊢
    have hdlen : (serial p ++ (rest.map serial).flatten).length =
        (serial p).length + ((rest.map serial).flatten).length :=
      List.length_append _ _
    have hsp4 : 4 ≤ (serial p).length := by omega
    have h0 : (serial p ++ (rest.map serial).flatten).length ≠ 0 := by omega
    have h4 : ¬ (serial p ++ (rest.map serial).flatten).length < HEADER_LENGTH := by
      rw [HEADER_LENGTH]; omega
    have hHdr : Header.unmarshal
        ((serial p ++ (rest.map serial).flatten).take HEADER_LENGTH) = .ok header := by
      rw [take_append_left HEADER_LENGTH _ _ (by rw [HEADER_LENGTH]; omega)]
      exact hH
    have hbp : ¬ (header.length + 1) * 4 >
        (serial p ++ (rest.map serial).flatten).length := by omega
    rcases fuel with _ | fuel
    · omega
    · rw [unmarshalLoop_cons env fuel _ header h0 h4 hHdr hbp]
      have hslice : (serial p ++ (rest.map serial).flatten).take
          ((header.length + 1) * 4) = serial p := by
        rw [← hlen]
        exact List.take_left _ _
      have hdrop : (serial p ++ (rest.map serial).flatten).drop
          ((header.length + 1) * 4) = (rest.map serial).flatten := by
        rw [← hlen]
        exact List.drop_left _ _
      rw [hslice, hU, hdrop,
        ih fuel (by omega) (fun q hq => hinv q (by simp [hq]))]

/-- C7 as amended: for every nonempty sequence P of packets whose concrete
kinds have encode and decode defined as mutual inverses (the collaborator
contract of §4.2), `unmarshal (marshal P)` returns P exactly; and re-serializing
a raw packet reproduces the exact bytes it was constructed from. -/
theorem unmarshal_marshal_roundtrip {α : Type} (env : DecodeEnv α)
    (pm : α → List Nat → List Nat × Option Error) (serial : α → List Nat)
    (hpm : ∀ p w, pm p w = (w ++ serial p, none))
    (P : List α) (hne : P ≠ [])
    (hinv : ∀ p ∈ P, ∃ header,
      Header.unmarshal ((serial p).take HEADER_LENGTH) = .ok header ∧
      (serial p).length = (header.length + 1) * 4 ∧
      unmarshaler env (serial p) header = .ok p) :
    unmarshal env (marshal pm P ([] : List Nat)).1 = .ok P ∧
    (∀ raw : List Nat, (Tagged.marshalTo (Tagged.rawPacket raw) []).1 = raw) := by
  constructor
  · have hm : marshal pm P ([] : List Nat) = ([] ++ (P.map serial).flatten, none) :=
      marshal_append pm serial (fun _ => none) (fun p w => hpm p w) P []
        (fun p _ => rfl)
    rw [hm]
    simp only [List.nil_append]
    rw [unmarshal, loop_of_serial env serial P _ (le_refl _) hinv]
    rcases P with _ | ⟨p, rest⟩
    · exact absurd rfl hne
    · simp
  · intro raw
    rfl

/-- Witness for the amended C7: a sender report followed by a goodbye
round-trips exactly through marshal and unmarshal. -/
theorem unmarshal_marshal_roundtrip_witness :
    unmarshal tagEnv (marshal Tagged.marshalTo
        [Tagged.senderReport [128, 200, 0, 0], Tagged.goodbye [128, 203, 0, 0]]
        ([] : List Nat)).1 =
      .ok [Tagged.senderReport [128, 200, 0, 0], Tagged.goodbye [128, 203, 0, 0]] ∧
    (∀ raw : List Nat, (Tagged.marshalTo (Tagged.rawPacket raw) []).1 = raw) :=
  unmarshal_marshal_roundtrip tagEnv Tagged.marshalTo Tagged.raw
    (fun p w => rfl)
    [Tagged.senderReport [128, 200, 0, 0], Tagged.goodbye [128, 203, 0, 0]]
    (by decide)
    (by
      intro p hp
      simp only [List.mem_cons, List.not_mem_nil, or_false] at hp
      rcases hp with rfl | rfl
      · exact ⟨⟨2, false, 0, .typeSenderReport, 0⟩, by decide, by decide, by decide⟩
      · exact ⟨⟨2, false, 0, .typeGoodbye, 0⟩, by decide, by decide, by decide⟩)

/-! ### Claim C10: the empty sequence is a valid marshal input -/

/-- C10: `marshal` applied to an empty sequence of packets succeeds and writes
zero bytes to the sink, while `unmarshal` rejects an empty compound with the
invalid-header error. -/
theorem marshal_nil_ok {α β W : Type} (pm : α → W → W × Option Error) (w : W)
    (env : DecodeEnv β) :
    marshal pm ([] : List α) w = (w, none) ∧
    unmarshal env ([] : List Nat) = .error .invalidHeader :=
  ⟨rfl, rfl⟩
